import Mathlib

/-!
# Verification of the parquet-query core subsystems

A shallow embedding, in Lean 4, of the engine-independent core of the
parquet-query workbench:

* the heterogeneous cell comparator and the client-side stable row sort
  (`compareCells`, `sortedTableRows`);
* the cursor-aware SQL statement locator (`statementAtPosition`);
* the preview conversion and the streaming CSV serializer
  (`tableToRows`, `recordBatchesToCSVParts`);
* the recursive file collector (`collectFilesFromDirectoryHandle`,
  `collectFilesFromFileList`);
* the workbench tab state machine (`WStep`, `WReachable`).

JavaScript strings are modelled as Lean `String`/`List Char` (positions count
characters; the scripts involved are plain text, where UTF-16 indexing and
character indexing agree).  JavaScript numbers produced by parsing decimal
cell text are modelled exactly as rationals (`ℚ`); IEEE-754 rounding only
departs from the exact value beyond 15 significant digits and overflows only
beyond about `1e308`, neither of which the statements below depend on.

Host functions that the source calls but does not define (`localeCompare`
with the `numeric`/`base` options, `Date.parse` on ISO-8601 text) are
modelled by executable Lean functions that follow the documented behaviour;
each such model carries a doc comment saying exactly what it stands for.
-/

namespace ParquetQuery

/-! ## String helpers (JS `trim`, `toLowerCase`) -/

/-- Whitespace recognised by the model of JavaScript `String.prototype.trim`
(space, tab, newline, carriage return, vertical tab, form feed). -/
def isJSWhitespace (c : Char) : Bool :=
  c == ' ' || c == '\t' || c == '\n' || c == '\r' || c == '\x0b' || c == '\x0c'

/-- Trim leading and trailing whitespace from a character list. -/
def trimChars (cs : List Char) : List Char :=
  ((cs.dropWhile isJSWhitespace).reverse.dropWhile isJSWhitespace).reverse

/-- Model of JavaScript `String.prototype.trim`. -/
def trimStr (s : String) : String :=
  String.mk (trimChars s.data)

/-- Model of JavaScript `String.prototype.toLowerCase` (ASCII case folding,
which is all the file-extension filter needs). -/
def lowerStr (s : String) : String :=
  String.mk (s.data.map Char.toLower)

/-- Numeric value of a list of decimal digits. -/
def natOfDigits (ds : List Char) : Nat :=
  ds.foldl (fun n c => n * 10 + (c.toNat - '0'.toNat)) 0

/-! ## CellComparator (`compareCells` in the workbench component)

The source trims both cells, orders an empty cell after any non-empty cell,
compares two numeric-patterned cells by value, two date-hinted parseable
cells chronologically, and otherwise falls back to
`a.localeCompare(b, undefined, { numeric: true, sensitivity: 'base' })`. -/

/-- Three-way comparison of naturals as an integer in `{-1, 0, 1}`. -/
def cmp3 (m n : Nat) : Int :=
  if m < n then -1 else if n < m then 1 else 0

/-- A collation token of the numeric-aware locale comparison: either a
maximal run of decimal digits (kept by numeric value) or a single
non-digit character. -/
inductive Tok where
  | num (v : Nat)
  | chr (c : Char)
deriving DecidableEq

/-- Tokenizer worker: `pending` is the value of the digit run read so far,
if one is open. -/
def tokAux : Option Nat → List Char → List Tok
  | none, [] => []
  | some v, [] => [Tok.num v]
  | none, c :: cs =>
    if c.isDigit then tokAux (some (c.toNat - '0'.toNat)) cs
    else Tok.chr c :: tokAux none cs
  | some v, c :: cs =>
    if c.isDigit then tokAux (some (v * 10 + (c.toNat - '0'.toNat))) cs
    else Tok.num v :: Tok.chr c :: tokAux none cs

/-- Split a character list into collation tokens: maximal digit runs become
`Tok.num` (their numeric value), every other character stands alone. -/
def tokenize (cs : List Char) : List Tok :=
  tokAux none cs

/-- Compare two collation tokens: digit runs by numeric value, characters
case-insensitively by code point; a digit run sorts before a character. -/
def cmpTok : Tok → Tok → Int
  | Tok.num v₁, Tok.num v₂ => cmp3 v₁ v₂
  | Tok.chr c₁, Tok.chr c₂ => cmp3 c₁.toLower.toNat c₂.toLower.toNat
  | Tok.num _, Tok.chr _ => -1
  | Tok.chr _, Tok.num _ => 1

/-- Lexicographic comparison of token lists, the shorter list first on a tie. -/
def cmpToks : List Tok → List Tok → Int
  | [], [] => 0
  | [], _ :: _ => -1
  | _ :: _, [] => 1
  | t :: ts, u :: us =>
    let c := cmpTok t u
    if c = 0 then cmpToks ts us else c

/-- Modelled from the spec: the host call
`a.localeCompare(b, undefined, { numeric: true, sensitivity: 'base' })` —
"locale-aware, case-insensitive, numeric-substring-aware lexical comparison
(so "file2" precedes "file10")".  Digit substrings compare by numeric value,
other characters case-insensitively. -/
def localeCompareNB (a b : String) : Int :=
  cmpToks (tokenize a.data) (tokenize b.data)

/-- The numeric cell pattern of the source, `/^-?\d+(\.\d+)?$/`. -/
def numPat (cs : List Char) : Bool :=
  let body := match cs with
    | '-' :: rest => rest
    | _ => cs
  let intPart := body.takeWhile Char.isDigit
  let rest := body.dropWhile Char.isDigit
  !intPart.isEmpty &&
    (rest.isEmpty ||
      (match rest with
        | '.' :: frac => !frac.isEmpty && frac.all Char.isDigit
        | _ => false))

/-- Numeric value of a string matching `numPat`, exactly, as a rational:
optional sign, integer part, optional fractional part.  This is the exact
value that JavaScript `Number` rounds to the nearest double. -/
def parseDec (cs : List Char) : ℚ :=
  let signAndBody : ℚ × List Char := match cs with
    | '-' :: rest => (-1, rest)
    | _ => (1, cs)
  let body := signAndBody.2
  let intPart := body.takeWhile Char.isDigit
  let rest := body.dropWhile Char.isDigit
  let ip : ℚ := natOfDigits intPart
  let fp : ℚ := match rest with
    | '.' :: frac => (natOfDigits frac : ℚ) / ((10 : ℚ) ^ frac.length)
    | _ => 0
  signAndBody.1 * (ip + fp)

/-- The date-hint test of the source: the cell contains `-`, `T` or `:`. -/
def hasDateHint (s : String) : Bool :=
  s.data.contains '-' || s.data.contains 'T' || s.data.contains ':'

/-- Read a fixed-width decimal number from the front of a character list. -/
def readDigits (cs : List Char) (n : Nat) : Option (Nat × List Char) :=
  let ds := cs.take n
  if ds.length = n && ds.all Char.isDigit then
    some (natOfDigits ds, cs.drop n)
  else none

/-- Days from the civil epoch 1970-01-01 of a proleptic Gregorian date
(the standard days-from-civil computation). -/
def daysFromCivil (y : Int) (m d : Nat) : Int :=
  let y' := if m ≤ 2 then y - 1 else y
  let era : Int := (if 0 ≤ y' then y' else y' - 399) / 400
  let yoe : Int := y' - era * 400
  let mp : Int := ((m : Int) + 9) % 12
  let doy : Int := (153 * mp + 2) / 5 + (d : Int) - 1
  let doe : Int := yoe * 365 + yoe / 4 - yoe / 100 + doy
  era * 146097 + doe - 719468

/-- Number of days in a month of the Gregorian calendar. -/
def daysInMonth (y : Int) (m : Nat) : Nat :=
  if m = 2 then
    if y % 4 = 0 && (y % 100 ≠ 0 || y % 400 = 0) then 29 else 28
  else if m = 4 || m = 6 || m = 9 || m = 11 then 30
  else 31

/-- Milliseconds since the epoch of a parsed time-of-day on a given day. -/
def timeMs (dayMs : Int) (h mi sec ms : Nat) : Int :=
  dayMs + (h : Int) * 3600000 + (mi : Int) * 60000 + (sec : Int) * 1000 + (ms : Int)

/-- Modelled from the spec: the host call `Date.parse` on the ISO-8601
subset the formatter emits ("date/timestamp values → ISO-8601"):
`YYYY-MM-DD`, optionally followed by `THH:MM:SS`, an optional `.mmm`
fraction and an optional `Z`; the result is milliseconds since the epoch,
with `none` standing for `NaN`. -/
def dateParse (s : String) : Option Int := do
  let cs := s.data
  let (y, cs) ← readDigits cs 4
  let cs ← if cs.head? = some '-' then pure cs.tail else none
  let (mo, cs) ← readDigits cs 2
  let cs ← if cs.head? = some '-' then pure cs.tail else none
  let (d, cs) ← readDigits cs 2
  if mo < 1 || 12 < mo || d < 1 || daysInMonth (y : Int) mo < d then none
  else
    let dayMs : Int := daysFromCivil (y : Int) mo d * 86400000
    match cs with
    | [] => some dayMs
    | 'T' :: cs => do
      let (h, cs) ← readDigits cs 2
      let cs ← if cs.head? = some ':' then pure cs.tail else none
      let (mi, cs) ← readDigits cs 2
      let cs ← if cs.head? = some ':' then pure cs.tail else none
      let (sec, cs) ← readDigits cs 2
      if 23 < h || 59 < mi || 59 < sec then none
      else
        let (ms, cs) ← match cs with
          | '.' :: cs' => readDigits cs' 3
          | _ => pure (0, cs)
        if cs = [] || cs = ['Z'] then some (timeMs dayMs h mi sec ms) else none
    | _ => none

/-- The workbench cell comparator (`compareCells` in the source): trim both
cells; two empty cells are equal and an empty cell sorts after a non-empty
one; two numeric-patterned cells compare by value (the finiteness guard of
the source always holds in the exact model); two date-hinted cells that both
parse compare chronologically; otherwise the locale comparison decides.
The result is a rational whose sign carries the ordering, exactly as the
JavaScript comparator returns a number.  The source's local bindings
`a = aRaw.trim()` and `b = bRaw.trim()` are inlined. -/
def compareCells (aRaw bRaw : String) : ℚ :=
  if trimStr aRaw == "" && trimStr bRaw == "" then 0
  else if trimStr aRaw == "" then 1
  else if trimStr bRaw == "" then -1
  else if numPat (trimStr aRaw).data && numPat (trimStr bRaw).data then
    parseDec (trimStr aRaw).data - parseDec (trimStr bRaw).data
  else if hasDateHint (trimStr aRaw) && hasDateHint (trimStr bRaw) then
    match dateParse (trimStr aRaw), dateParse (trimStr bRaw) with
    | some at', some bt' => ((at' - bt' : Int) : ℚ)
    | _, _ => (localeCompareNB (trimStr aRaw) (trimStr bRaw) : ℚ)
  else (localeCompareNB (trimStr aRaw) (trimStr bRaw) : ℚ)

/-! ## Client-side sorting (`sortedTable` in the workbench component)

The source decorates the filtered preview rows with their index, sorts with
`compareCells` on the sort column multiplied by the direction sign (`1` for
ascending, `-1` for descending) and breaks ties by original index.  The
host `Array.prototype.sort` is stable; with the index tiebreak the
comparator is a strict total order wherever `compareCells` is consistent,
so the result is the insertion-sorted order modelled here. -/

/-- Sort direction of the single `(columnIndex, direction)` sort state. -/
inductive SortDir where
  | asc
  | desc
deriving DecidableEq

/-- `const dir = sort.dir === 'asc' ? 1 : -1;` -/
def dirSign : SortDir → ℚ
  | SortDir.asc => 1
  | SortDir.desc => -1

/-- Decorate each row with its original index (`rows.map((row, idx) => …)`). -/
def enumFrom (i : Nat) : List α → List (Nat × α)
  | [] => []
  | x :: xs => (i, x) :: enumFrom (i + 1) xs

/-- The sort comparator of the source as a `Bool`-valued "`x` sorts no
later than `y`": `compareCells` on the sort column times the direction
sign when nonzero, the original index otherwise
(`row[sort.col] ?? ''` reads `""` past the end of a row). -/
def rowLe (col : Nat) (dir : ℚ) (x y : Nat × List String) : Bool :=
  let cmp := compareCells (x.2.getD col "") (y.2.getD col "")
  if cmp = 0 then decide (x.1 ≤ y.1) else decide (cmp * dir < 0)

/-- Insert into a sorted list, after every element that sorts no later. -/
def insertSortedBy (le : α → α → Bool) (x : α) : List α → List α
  | [] => [x]
  | y :: ys => if le x y then x :: y :: ys else y :: insertSortedBy le x ys

/-- Insertion sort, stable by construction. -/
def sortListBy (le : α → α → Bool) : List α → List α
  | [] => []
  | x :: xs => insertSortedBy le x (sortListBy le xs)

/-- The sorted preview rows (`sortedTable` in the source): index-decorated
rows sorted by the direction-signed comparator, then stripped of their
indices. -/
def sortedTableRows (rows : List (List String)) (col : Nat) (dir : SortDir) : List (List String) :=
  (sortListBy (rowLe col (dirSign dir)) (enumFrom 0 rows)).map (·.2)

/-! ## StatementLocator (`statementAtPosition` in the workbench component)

A single left-to-right scan over the script, with four mutually exclusive
modes (single-quoted string, double-quoted identifier, line comment, block
comment); a semicolon seen in no mode closes the segment `[start, i)`; the
trailing segment to end-of-buffer is always recorded.  Positions count
characters, matching the source's string indexing on the plain-text
scripts involved. -/

/-- The scan mode of the statement locator: the four `in…` booleans of the
source are mutually exclusive, so they form one five-valued mode. -/
inductive ScanMode where
  | neutral
  | single
  | double
  | lineComment
  | blockComment
deriving DecidableEq

/-- The single-quote character (written by code point). -/
def squote : Char := Char.ofNat 39

/-- The scan loop of `statementAtPosition`: `i` is the current position,
`start` the start of the open segment.  Two-character lookahead pairs
(`--`, `/*`, `*/`, doubled quotes) consume both characters, exactly as the
source's `i++` inside the loop does. -/
def scanSegs : List Char → Nat → Nat → ScanMode → List (Nat × Nat)
  | [], i, start, _ => [(start, i)]
  | c :: cs, i, start, mode =>
    match mode with
    | ScanMode.lineComment =>
      if c = '\n' then scanSegs cs (i + 1) start ScanMode.neutral
      else scanSegs cs (i + 1) start ScanMode.lineComment
    | ScanMode.blockComment =>
      match cs with
      | c2 :: rest =>
        if c = '*' ∧ c2 = '/' then scanSegs rest (i + 2) start ScanMode.neutral
        else scanSegs (c2 :: rest) (i + 1) start ScanMode.blockComment
      | [] => scanSegs [] (i + 1) start ScanMode.blockComment
    | ScanMode.single =>
      if c = squote then
        match cs with
        | c2 :: rest =>
          if c2 = squote then scanSegs rest (i + 2) start ScanMode.single
          else scanSegs (c2 :: rest) (i + 1) start ScanMode.neutral
        | [] => scanSegs [] (i + 1) start ScanMode.neutral
      else scanSegs cs (i + 1) start ScanMode.single
    | ScanMode.double =>
      if c = '"' then
        match cs with
        | c2 :: rest =>
          if c2 = '"' then scanSegs rest (i + 2) start ScanMode.double
          else scanSegs (c2 :: rest) (i + 1) start ScanMode.neutral
        | [] => scanSegs [] (i + 1) start ScanMode.neutral
      else scanSegs cs (i + 1) start ScanMode.double
    | ScanMode.neutral =>
      match cs with
      | c2 :: rest =>
        if c = '-' ∧ c2 = '-' then scanSegs rest (i + 2) start ScanMode.lineComment
        else if c = '/' ∧ c2 = '*' then scanSegs rest (i + 2) start ScanMode.blockComment
        else if c = squote then scanSegs (c2 :: rest) (i + 1) start ScanMode.single
        else if c = '"' then scanSegs (c2 :: rest) (i + 1) start ScanMode.double
        else if c = ';' then (start, i) :: scanSegs (c2 :: rest) (i + 1) (i + 1) ScanMode.neutral
        else scanSegs (c2 :: rest) (i + 1) start ScanMode.neutral
      | [] =>
        if c = squote then scanSegs [] (i + 1) start ScanMode.single
        else if c = '"' then scanSegs [] (i + 1) start ScanMode.double
        else if c = ';' then (start, i) :: scanSegs [] (i + 1) (i + 1) ScanMode.neutral
        else scanSegs [] (i + 1) start ScanMode.neutral

/-- The same scan, reduced to its mode automaton: it records the positions
of exactly those semicolons that are met in no special mode.  This is the
specification-side reading of "a `;` encountered in no special mode ends a
segment"; `scanSegs_eq_buildSegs` relates it to the scanner. -/
def neutralSemis : List Char → Nat → ScanMode → List Nat
  | [], _, _ => []
  | c :: cs, i, mode =>
    match mode with
    | ScanMode.lineComment =>
      if c = '\n' then neutralSemis cs (i + 1) ScanMode.neutral
      else neutralSemis cs (i + 1) ScanMode.lineComment
    | ScanMode.blockComment =>
      match cs with
      | c2 :: rest =>
        if c = '*' ∧ c2 = '/' then neutralSemis rest (i + 2) ScanMode.neutral
        else neutralSemis (c2 :: rest) (i + 1) ScanMode.blockComment
      | [] => neutralSemis [] (i + 1) ScanMode.blockComment
    | ScanMode.single =>
      if c = squote then
        match cs with
        | c2 :: rest =>
          if c2 = squote then neutralSemis rest (i + 2) ScanMode.single
          else neutralSemis (c2 :: rest) (i + 1) ScanMode.neutral
        | [] => neutralSemis [] (i + 1) ScanMode.neutral
      else neutralSemis cs (i + 1) ScanMode.single
    | ScanMode.double =>
      if c = '"' then
        match cs with
        | c2 :: rest =>
          if c2 = '"' then neutralSemis rest (i + 2) ScanMode.double
          else neutralSemis (c2 :: rest) (i + 1) ScanMode.neutral
        | [] => neutralSemis [] (i + 1) ScanMode.neutral
      else neutralSemis cs (i + 1) ScanMode.double
    | ScanMode.neutral =>
      match cs with
      | c2 :: rest =>
        if c = '-' ∧ c2 = '-' then neutralSemis rest (i + 2) ScanMode.lineComment
        else if c = '/' ∧ c2 = '*' then neutralSemis rest (i + 2) ScanMode.blockComment
        else if c = squote then neutralSemis (c2 :: rest) (i + 1) ScanMode.single
        else if c = '"' then neutralSemis (c2 :: rest) (i + 1) ScanMode.double
        else if c = ';' then i :: neutralSemis (c2 :: rest) (i + 1) ScanMode.neutral
        else neutralSemis (c2 :: rest) (i + 1) ScanMode.neutral
      | [] =>
        if c = squote then neutralSemis [] (i + 1) ScanMode.single
        else if c = '"' then neutralSemis [] (i + 1) ScanMode.double
        else if c = ';' then i :: neutralSemis [] (i + 1) ScanMode.neutral
        else neutralSemis [] (i + 1) ScanMode.neutral

/-- Rebuild the segment list from the boundary semicolon positions: each
boundary closes a segment and the next segment starts right after it; the
final segment runs to end-of-buffer. -/
def buildSegs (start : Nat) : List Nat → Nat → List (Nat × Nat)
  | [], stop => [(start, stop)]
  | b :: bs, stop => (start, b) :: buildSegs (b + 1) bs stop

/-- The segments of a script (`segments` array of the source). -/
def segmentsOf (sql : String) : List (Nat × Nat) :=
  scanSegs sql.data 0 0 ScanMode.neutral

/-- `sql.slice(start, end).trim()` of the source. -/
def sliceTrim (sql : String) (s e : Nat) : String :=
  String.mk (trimChars ((sql.data.drop s).take (e - s)))

/-- The `pick` helper of the source: the trimmed text of segment `i`
(total: out-of-range indices, which the source never uses, give `""`). -/
def pickSeg (sql : String) (segs : List (Nat × Nat)) (i : Nat) : String :=
  match segs.get? i with
  | some se => sliceTrim sql se.1 se.2
  | none => ""

/-- `statementAtPosition` of the source: clamp the cursor, take the first
segment whose closed span contains it (the last segment when none does),
return its trimmed text if non-empty, otherwise the nearest non-empty
segment backwards, then forwards, otherwise `""`. -/
def statementAtPosition (sql : String) (position : Nat) : String :=
  let segs := segmentsOf sql
  let clamped := min position sql.length
  let idx :=
    match segs.findIdx? (fun se => decide (se.1 ≤ clamped) && decide (clamped ≤ se.2)) with
    | some j => j
    | none => segs.length - 1
  if pickSeg sql segs idx ≠ "" then pickSeg sql segs idx
  else
    match ((List.range idx).reverse.map (pickSeg sql segs)).find? (fun v => v != "") with
    | some v => v
    | none =>
      match ((List.range' (idx + 1) (segs.length - (idx + 1))).map
          (pickSeg sql segs)).find? (fun v => v != "") with
      | some v => v
      | none => ""

/-- `getSQLAtCursorOrSelection` of the workbench: a non-empty trimmed
explicit selection wins; otherwise the statement at the cursor; if that
trims to `""`, the whole buffer trimmed.  `selection` is the sliced
selection text when the editor selection is non-collapsed, `none` when it
is collapsed. -/
def getSQLAtCursorOrSelection (doc : String) (selection : Option String) (cursor : Nat) :
    String :=
  let selected :=
    match selection with
    | some sel => trimStr sel
    | none => ""
  if selected ≠ "" then selected
  else
    let stmt := trimStr (statementAtPosition doc cursor)
    if stmt ≠ "" then stmt else trimStr doc

/-! ## FileCollector (`fileImport` module)

Recursive traversal of a picked directory, or a flat fallback file list;
an allow-list extension filter; metadata aligned index-by-index with the
collected file handles. -/

/-- Model of JS `String.prototype.endsWith`. -/
def strEndsWith (s suffix : String) : Bool :=
  suffix.data.isSuffixOf s.data

/-- `isSupportedFilePath` of the source: lower-case the path, keep it when
it ends in one of the four supported extensions. -/
def isSupportedFilePath (path : String) : Bool :=
  strEndsWith (lowerStr path) ".parquet" ||
  strEndsWith (lowerStr path) ".csv" ||
  strEndsWith (lowerStr path) ".json" ||
  strEndsWith (lowerStr path) ".ndjson"

/-- The data of a host `File` object that the collector reads: its byte
size and its media type. -/
structure FileData where
  size : Nat
  type : String
deriving DecidableEq

/-- `ImportedFile` of the source. -/
structure ImportedFile where
  path : String
  size : Nat
  type : String
deriving DecidableEq

/-- One entry of a directory enumeration: a file (whose `getFile()` call
either yields the file or fails), a subdirectory with its own entries, or
an entry of any other kind. -/
inductive FsEntry where
  | file (name : String) (read : Except String FileData)
  | dir (name : String) (children : List FsEntry)
  | other (name : String)

/-- `basePath ? `${basePath}/${name}` : name` (the empty base is falsy). -/
def joinPath (basePath name : String) : String :=
  if basePath = "" then name else basePath ++ "/" ++ name

/-- `collectFilesFromDirectoryHandle` of the source, on the entry list of
the handle: directories recurse with the extended path, files of a
supported path are read (`await handle.getFile()` — a failing read throws
out of the whole traversal, there is no per-entry handler), everything
else is skipped.  `meta[i].type` is `file.type || 'file'`. -/
def collectFilesFromDirectoryHandle :
    List FsEntry → String → Except String (List FileData × List ImportedFile)
  | [], _ => Except.ok ([], [])
  | FsEntry.dir name children :: rest, basePath => do
    let nested ← collectFilesFromDirectoryHandle children (joinPath basePath name)
    let tail ← collectFilesFromDirectoryHandle rest basePath
    Except.ok (nested.1 ++ tail.1, nested.2 ++ tail.2)
  | FsEntry.file name res :: rest, basePath =>
    if isSupportedFilePath (joinPath basePath name) then do
      let f ← res
      let tail ← collectFilesFromDirectoryHandle rest basePath
      Except.ok (f :: tail.1,
        { path := joinPath basePath name, size := f.size,
          type := if f.type = "" then "file" else f.type } :: tail.2)
    else collectFilesFromDirectoryHandle rest basePath
  | FsEntry.other _ :: rest, basePath => collectFilesFromDirectoryHandle rest basePath

/-- A file of a flat (fallback) selection: its relative path when the
browser provides one, its plain name otherwise. -/
structure FlatFile where
  name : String
  webkitRelativePath : String
  size : Nat
  type : String
deriving DecidableEq

/-- `collectFilesFromFileList` of the source: filter the flat selection by
the supported-path test on `webkitRelativePath || name`. -/
def collectFilesFromFileList : List FlatFile → List FlatFile × List ImportedFile
  | [] => ([], [])
  | f :: rest =>
    let path := if f.webkitRelativePath ≠ "" then f.webkitRelativePath else f.name
    let tail := collectFilesFromFileList rest
    if isSupportedFilePath path then
      (f :: tail.1,
        { path := path, size := f.size,
          type := if f.type = "" then "file" else f.type } :: tail.2)
    else tail

/-! ## ResultFormatter (`arrow` module)

`formatCell` renders one engine value as text; `tableToRows` caps the
preview; `recordBatchesToCSVParts` streams record batches into CSV
chunks. -/

/-- An engine cell value, by the branch of `formatCell` that renders it:
`null`/`undefined`; a bigint; a `Date` (carried as its `toISOString`
rendering); another object (carried as its `JSON.stringify` rendering);
any other primitive (carried as its `String(value)` rendering). -/
inductive JSValue where
  | vnull
  | vundef
  | vbigint (i : Int)
  | vdate (iso : String)
  | vobj (json : String)
  | vprim (s : String)
deriving DecidableEq

/-- `formatCell` of the source. -/
def formatCell : JSValue → String
  | JSValue.vnull => ""
  | JSValue.vundef => ""
  | JSValue.vbigint i => toString i
  | JSValue.vdate iso => iso
  | JSValue.vobj json => json
  | JSValue.vprim s => s

/-- Double every `"` in a character list (`value.replaceAll('"', '""')`). -/
def doubleQuotes : List Char → List Char
  | [] => []
  | c :: cs => if c = '"' then '"' :: '"' :: doubleQuotes cs else c :: doubleQuotes cs

/-- `csvEscape` of the source: quote the field iff it contains `"`, `,`,
`\n` or `\r`, doubling internal quotes. -/
def csvEscape (value : String) : String :=
  if value.data.contains '"' || value.data.contains ',' ||
      value.data.contains '\n' || value.data.contains '\r' then
    String.mk ('"' :: doubleQuotes value.data ++ ['"'])
  else value

/-- `csvLine` of the source: escaped cells joined by commas, `\r\n`
terminated. -/
def csvLine (cells : List String) : String :=
  String.intercalate "," (cells.map csvEscape) ++ "\r\n"

/-- Concatenation of a chunk list: the text a consumer reconstructs from
the returned parts (`new Blob(parts)` in the caller). -/
def concatParts (l : List String) : String :=
  l.foldr (fun s acc => s ++ acc) ""

/-- A columnar result table: field names, column-major cells, row count. -/
structure ArrowTable where
  fields : List String
  cols : List (List JSValue)
  numRows : Nat

/-- `table.getChildAt(c)?.get(r)`: a missing column reads as `undefined`,
a missing row as `null`; `formatCell` renders both as `""`. -/
def tableCell (t : ArrowTable) (c r : Nat) : JSValue :=
  match t.cols.get? c with
  | none => JSValue.vundef
  | some col => (col.get? r).getD JSValue.vnull

/-- The preview table returned by `tableToRows`. -/
structure PreviewTable where
  columns : List String
  rows : List (List String)
deriving DecidableEq

/-- `tableToRows` of the source: at most `limit` rows read straight off
the column accessors, each row one formatted cell per column. -/
def tableToRows (t : ArrowTable) (limit : Nat) : PreviewTable :=
  { columns := t.fields,
    rows := (List.range (min t.numRows limit)).map fun r =>
      (List.range t.fields.length).map fun c => formatCell (tableCell t c r) }

/-- One record batch of a streamed result. -/
structure RecordBatch where
  fields : List String
  numRows : Nat
  cols : List (List JSValue)

/-- `batch.getChildAt(c)?.get(r)` for a record batch. -/
def batchCell (b : RecordBatch) (c r : Nat) : JSValue :=
  match b.cols.get? c with
  | none => JSValue.vundef
  | some col => (col.get? r).getD JSValue.vnull

/-- The options of `recordBatchesToCSVParts` (`opts?.header ?? true`,
`opts?.flushChars ?? 1_000_000`). -/
structure CSVOpts where
  header : Option Bool
  flushChars : Option Nat

/-- The loop state of `recordBatchesToCSVParts`. -/
structure CSVState where
  parts : List String
  buffer : String
  headerWritten : Bool
  columns : Nat
  rows : Nat

/-- The result of `recordBatchesToCSVParts`. -/
structure CSVResult where
  parts : List String
  rows : Nat
  columns : Nat
deriving DecidableEq

/-- The CSV line of row `r` of a batch, under the column count fixed by
the first batch's schema. -/
def csvRowLine (b : RecordBatch) (columns : Nat) (r : Nat) : String :=
  csvLine ((List.range columns).map fun c => formatCell (batchCell b c r))

/-- Append one data line to the buffer, count the row, flush the buffer as
a part once it reaches the threshold. -/
def csvPushRow (flushChars : Nat) (st : CSVState) (line : String) : CSVState :=
  let buf := st.buffer ++ line
  if flushChars ≤ buf.length then
    { st with parts := st.parts ++ [buf], buffer := "", rows := st.rows + 1 }
  else { st with buffer := buf, rows := st.rows + 1 }

/-- Process one batch: on the first batch fix the column count and write
the header line (when enabled), then emit every row. -/
def csvProcessBatch (includeHeader : Bool) (flushChars : Nat) (st : CSVState)
    (b : RecordBatch) : CSVState :=
  let st1 :=
    if !st.headerWritten then
      { st with
        columns := b.fields.length,
        buffer := st.buffer ++ (if includeHeader then csvLine b.fields else ""),
        headerWritten := true }
    else st
  (List.range b.numRows).foldl (fun s r => csvPushRow flushChars s (csvRowLine b s.columns r)) st1

/-- `recordBatchesToCSVParts` of the source, on the batch sequence it
consumes: fold the batches through the loop, fail (the source `throw`s)
when no batch ever wrote the header, otherwise flush the remaining
buffer. -/
def recordBatchesToCSVParts (batches : List RecordBatch) (opts : CSVOpts) :
    Except String CSVResult :=
  let includeHeader := opts.header.getD true
  let flushChars := opts.flushChars.getD 1000000
  let st := batches.foldl (csvProcessBatch includeHeader flushChars)
    { parts := [], buffer := "", headerWritten := false, columns := 0, rows := 0 }
  if !st.headerWritten then
    Except.error "Query não retornou schema para exportação."
  else
    Except.ok { parts := if st.buffer ≠ "" then st.parts ++ [st.buffer] else st.parts,
                rows := st.rows, columns := st.columns }

/-! ## Workbench tab state (`App` component)

The tab list and the active-tab id, with the handlers that mutate them.
Fresh tab ids are minted as `String(Date.now())`: the decimal string of
the current millisecond, modelled as `Nat.repr now` for an arbitrary
`now : Nat`.  Such a string is never empty, but it is not guaranteed
fresh — `Date.now()` repeats within one millisecond, so two rapid
creations mint the same id — hence the step relation `WStep` places no
freshness hypothesis on creations.  `WStepFresh` below is the restriction
to collision-free creations, under which the tab invariant is proved. -/

/-- Tab category. -/
inductive TabCategory where
  | scripts
  | bookmarks
  | templates
deriving DecidableEq

/-- The default SQL of a fresh tab.  The source's `DEFAULT_SQL` is a
Portuguese comment block ending in this query; the comment lines play no
role in any statement below and are elided. -/
def defaultSQL : String := "SELECT 42 AS ok;"

/-- `QueryTab` of the source. -/
structure QueryTab where
  id : String
  name : String
  sql : String
  isDirty : Bool
  category : TabCategory
deriving DecidableEq

/-- The fallback tab created when nothing is stored. -/
def defaultTab : QueryTab :=
  { id := "1", name := "Script-1", sql := defaultSQL, isDirty := false,
    category := TabCategory.scripts }

/-- `loadTabsFromStorage` of the source: the parsed stored list when
`localStorage` holds one (`some tabs`), else the default singleton;
`none` covers both an absent key and a parse error (caught and logged). -/
def loadTabsFromStorage (stored : Option (List QueryTab)) : List QueryTab :=
  match stored with
  | some tabs => tabs
  | none => [defaultTab]

/-- The ids of a tab list. -/
def tabIds (tabs : List QueryTab) : List String :=
  tabs.map fun t => t.id

/-- The workbench tab state: the `tabs` and `activeTabId` state cells. -/
structure WState where
  tabs : List QueryTab
  activeTabId : String
deriving DecidableEq

/-- The initial state: loaded tabs and `tabs[0]?.id || '1'` (the empty
string is falsy in JS, hence the inner test). -/
def initWState (stored : Option (List QueryTab)) : WState :=
  let tabs := loadTabsFromStorage stored
  { tabs := tabs,
    activeTabId :=
      match tabs.head? with
      | some t => if t.id = "" then "1" else t.id
      | none => "1" }

/-- `createNewTab` of the source: append a fresh `Script-k` tab of the
category and activate it. -/
def createNewTabFn (s : WState) (newId : String) (category : TabCategory) : WState :=
  { tabs := s.tabs ++
      [{ id := newId,
         name := "Script-" ++ toString ((s.tabs.filter fun t => t.category == category).length + 1),
         sql := defaultSQL, isDirty := false, category := category }],
    activeTabId := newId }

/-- The template-button handler of the source: append a tab holding the
template and activate it. -/
def createTemplateTabFn (s : WState) (newId name sql : String) : WState :=
  { tabs := s.tabs ++
      [{ id := newId, name := name, sql := sql, isDirty := false,
         category := TabCategory.scripts }],
    activeTabId := newId }

/-- `closeTab` of the source: a no-op on the last tab; otherwise drop the
tab and, when it was active, activate `newTabs[0]?.id || '1'`. -/
def closeTabFn (s : WState) (tabId : String) : WState :=
  if s.tabs.length = 1 then s
  else
    let newTabs := s.tabs.filter fun t => t.id != tabId
    { tabs := newTabs,
      activeTabId :=
        if s.activeTabId = tabId then
          match newTabs.head? with
          | some t => if t.id = "" then "1" else t.id
          | none => "1"
        else s.activeTabId }

/-- `updateTabSQL` of the source: rewrite the tab's text and mark it
dirty. -/
def updateTabSQLFn (s : WState) (tabId sql : String) : WState :=
  { s with
    tabs := s.tabs.map fun t =>
      if t.id = tabId then { t with sql := sql, isDirty := true } else t }

/-- `updateTabName` of the source: `name.trim() || t.name`. -/
def updateTabNameFn (s : WState) (tabId name : String) : WState :=
  { s with
    tabs := s.tabs.map fun t =>
      if t.id = tabId then
        { t with name := if trimStr name ≠ "" then trimStr name else t.name }
      else t }

/-- `markTabClean` of the source. -/
def markTabCleanFn (s : WState) (tabId : String) : WState :=
  { s with
    tabs := s.tabs.map fun t =>
      if t.id = tabId then { t with isDirty := false } else t }

/-- The tab-click handler: activate an existing tab. -/
def setActiveTabFn (s : WState) (tabId : String) : WState :=
  { s with activeTabId := tabId }

/-- One user action on the tab state.  Tab creation mints the id
`String(Date.now())`, the decimal string `Nat.repr now` of the current
millisecond `now`; nothing stops two creations from sharing a millisecond,
so no freshness is assumed.  `selectTab` carries membership because the
click handler exists only on a rendered tab. -/
inductive WStep : WState → WState → Prop where
  | createNewTab (s : WState) (now : Nat) (category : TabCategory) :
      WStep s (createNewTabFn s (Nat.repr now) category)
  | createTemplateTab (s : WState) (now : Nat) (name sql : String) :
      WStep s (createTemplateTabFn s (Nat.repr now) name sql)
  | closeTab (s : WState) (tabId : String) : WStep s (closeTabFn s tabId)
  | selectTab (s : WState) (tabId : String) (hmem : tabId ∈ tabIds s.tabs) :
      WStep s (setActiveTabFn s tabId)
  | updateTabSQL (s : WState) (tabId sql : String) : WStep s (updateTabSQLFn s tabId sql)
  | updateTabName (s : WState) (tabId name : String) : WStep s (updateTabNameFn s tabId name)
  | markTabClean (s : WState) (tabId : String) : WStep s (markTabCleanFn s tabId)

/-- The reachable workbench states: boot with empty or unreadable storage,
boot from a tab list the workbench itself persisted (`saveTabsToStorage`
writes exactly `tabs`), or any step from a reachable state. -/
inductive WReachable : WState → Prop where
  | boot : WReachable (initWState none)
  | bootSaved (s : WState) (h : WReachable s) : WReachable (initWState (some s.tabs))
  | step (s s' : WState) (h : WReachable s) (hs : WStep s s') : WReachable s'

/-- The tab-state invariant: a tab always exists, the active id points at
a tab, ids are distinct and non-empty. -/
def WInv (s : WState) : Prop :=
  s.tabs ≠ [] ∧ s.activeTabId ∈ tabIds s.tabs ∧ (tabIds s.tabs).Nodup ∧
    ∀ i ∈ tabIds s.tabs, i ≠ ""

/-- `WStep` restricted to collision-free creations: the minted millisecond
string is not already a live tab id.  `Date.now()` repeats within one
millisecond, so the program does not guarantee this restriction. -/
inductive WStepFresh : WState → WState → Prop where
  | createNewTab (s : WState) (now : Nat) (category : TabCategory)
      (hfresh : Nat.repr now ∉ tabIds s.tabs) :
      WStepFresh s (createNewTabFn s (Nat.repr now) category)
  | createTemplateTab (s : WState) (now : Nat) (name sql : String)
      (hfresh : Nat.repr now ∉ tabIds s.tabs) :
      WStepFresh s (createTemplateTabFn s (Nat.repr now) name sql)
  | closeTab (s : WState) (tabId : String) : WStepFresh s (closeTabFn s tabId)
  | selectTab (s : WState) (tabId : String) (hmem : tabId ∈ tabIds s.tabs) :
      WStepFresh s (setActiveTabFn s tabId)
  | updateTabSQL (s : WState) (tabId sql : String) : WStepFresh s (updateTabSQLFn s tabId sql)
  | updateTabName (s : WState) (tabId name : String) : WStepFresh s (updateTabNameFn s tabId name)
  | markTabClean (s : WState) (tabId : String) : WStepFresh s (markTabCleanFn s tabId)

/-- Reachability along collision-free steps only. -/
inductive WReachableFresh : WState → Prop where
  | boot : WReachableFresh (initWState none)
  | bootSaved (s : WState) (h : WReachableFresh s) : WReachableFresh (initWState (some s.tabs))
  | step (s s' : WState) (h : WReachableFresh s) (hs : WStepFresh s s') : WReachableFresh s'

/-- Two tab creations at millisecond 5 (both minting id `"5"`), then
closing the seed tab `"1"` and the tab id `"5"`. -/
def c9CollideState : WState :=
  closeTabFn
    (closeTabFn
      (createNewTabFn
        (createNewTabFn (initWState none) (Nat.repr 5) TabCategory.scripts)
        (Nat.repr 5) TabCategory.scripts)
      "1")
    "5"

/-! ## Comparator lemmas -/

/-- `cmp3` flips sign when its arguments swap. -/
theorem cmp3_swap (m n : Nat) : cmp3 m n = -cmp3 n m := by
  unfold cmp3
  split_ifs <;> omega

/-- `cmp3` is zero on the diagonal. -/
theorem cmp3_self (m : Nat) : cmp3 m m = 0 := by
  simp [cmp3]

/-- `cmp3` only returns `-1`, `0` or `1`. -/
theorem cmp3_cases (m n : Nat) : cmp3 m n = -1 ∨ cmp3 m n = 0 ∨ cmp3 m n = 1 := by
  unfold cmp3
  split_ifs <;> simp

/-- Token comparison flips sign when its arguments swap. -/
theorem cmpTok_swap (t u : Tok) : cmpTok t u = -cmpTok u t := by
  cases t <;> cases u <;> simp only [cmpTok] <;>
    first
      | exact cmp3_swap _ _
      | norm_num

/-- Token comparison is zero on the diagonal. -/
theorem cmpTok_self (t : Tok) : cmpTok t t = 0 := by
  cases t <;> simp [cmpTok, cmp3_self]

/-- Token comparison only returns `-1`, `0` or `1`. -/
theorem cmpTok_cases (t u : Tok) : cmpTok t u = -1 ∨ cmpTok t u = 0 ∨ cmpTok t u = 1 := by
  cases t <;> cases u <;> simp [cmpTok, cmp3_cases]

/-- Token-list comparison flips sign when its arguments swap. -/
theorem cmpToks_swap (ts us : List Tok) : cmpToks ts us = -cmpToks us ts := by
  induction ts generalizing us with
  | nil => cases us <;> simp [cmpToks]
  | cons t ts ih =>
    cases us with
    | nil => simp [cmpToks]
    | cons u us =>
      simp only [cmpToks, cmpTok_swap t u, neg_eq_zero]
      by_cases h : cmpTok u t = 0 <;> simp [h, ih]

/-- Token-list comparison is zero on the diagonal. -/
theorem cmpToks_self (ts : List Tok) : cmpToks ts ts = 0 := by
  induction ts with
  | nil => rfl
  | cons t ts ih => simp [cmpToks, cmpTok_self, ih]

/-- Token-list comparison only returns `-1`, `0` or `1`. -/
theorem cmpToks_cases (ts us : List Tok) :
    cmpToks ts us = -1 ∨ cmpToks ts us = 0 ∨ cmpToks ts us = 1 := by
  induction ts generalizing us with
  | nil => cases us <;> simp [cmpToks]
  | cons t ts ih =>
    cases us with
    | nil => simp [cmpToks]
    | cons u us =>
      simp only [cmpToks]
      by_cases h : cmpTok t u = 0
      · simp [h, ih]
      · simpa [h] using cmpTok_cases t u

/-- The locale comparison flips sign when its arguments swap. -/
theorem localeCompareNB_swap (a b : String) : localeCompareNB a b = -localeCompareNB b a :=
  cmpToks_swap _ _

/-- The locale comparison is zero on the diagonal. -/
theorem localeCompareNB_self (a : String) : localeCompareNB a a = 0 :=
  cmpToks_self _

/-- The sign flip of the locale comparison, under the cast into `ℚ`. -/
theorem localeCompareNB_cast_swap (x y : String) :
    ((localeCompareNB x y : Int) : ℚ) = -((localeCompareNB y x : Int) : ℚ) := by
  rw [localeCompareNB_swap x y]
  push_cast
  ring

/-- An empty cell against a non-empty cell compares as `1` (after the
other side). -/
theorem compareCells_empty_first (a b : String) (ha : trimStr a = "") (hb : trimStr b ≠ "") :
    compareCells a b = 1 := by
  unfold compareCells
  simp [ha, hb]

/-- A non-empty cell against an empty cell compares as `-1` (before the
other side). -/
theorem compareCells_empty_second (a b : String) (ha : trimStr a ≠ "") (hb : trimStr b = "") :
    compareCells a b = -1 := by
  unfold compareCells
  simp [ha, hb]

/-- `compareCells` is zero on the diagonal. -/
theorem compareCells_self (s : String) : compareCells s s = 0 := by
  unfold compareCells
  split_ifs with h1 h2 h3 h4
  · rfl
  · simp_all
  · exact sub_self _
  · cases h : dateParse (trimStr s)
    · simp [localeCompareNB_self]
    · simp [sub_self]
  · simp [localeCompareNB_self]

/-- `compareCells` flips sign when its arguments swap. -/
theorem compareCells_swap (a b : String) : compareCells a b = -compareCells b a := by
  unfold compareCells
  by_cases ha : trimStr a = "" <;> by_cases hb : trimStr b = ""
  · simp [ha, hb]
  · simp [ha, hb]
  · simp [ha, hb]
  · by_cases h1 : numPat (trimStr a).data <;> by_cases h2 : numPat (trimStr b).data <;>
      by_cases h3 : hasDateHint (trimStr a) <;> by_cases h4 : hasDateHint (trimStr b) <;>
      simp [ha, hb, h1, h2, h3, h4, neg_sub]
    all_goals try (cases hda : dateParse (trimStr a) <;> cases hdb : dateParse (trimStr b))
    all_goals try dsimp only
    all_goals try ring
    all_goals rw [localeCompareNB_swap (trimStr a) (trimStr b)]
    all_goals push_cast
    all_goals ring

/-- Concrete evaluation of `parseDec` used by the counterexamples. -/
theorem parseDec_ten : parseDec ['1', '0'] = 10 := by
  simp +decide [parseDec, natOfDigits]

/-- Concrete evaluation of `parseDec` used by the counterexamples. -/
theorem parseDec_two : parseDec ['2'] = 2 := by
  simp +decide [parseDec, natOfDigits]

/-! ## Claim theorems: the cell comparator and the sort (C1, C5, C6) -/

/-- C1 (counterexample): sorting the preview rows `[["a"], [""]]` on
column 0 **descending** puts the empty-cell row first, not last — the
direction sign multiplies the comparator's `1`, so the empty cell is last
only under ascending order, contradicting "ordered last, independent of
ascending/descending direction". -/
theorem c1_counterexample :
    sortedTableRows [["a"], [""]] 0 SortDir.desc = [[""], ["a"]] ∧
      (sortedTableRows [["a"], [""]] 0 SortDir.desc).getLast? ≠ some [""] := by
  have h2 : compareCells "a" "" = -1 :=
    compareCells_empty_second "a" "" (by decide) (by decide)
  have hs : sortedTableRows [["a"], [""]] 0 SortDir.desc = [[""], ["a"]] := by
    norm_num [sortedTableRows, enumFrom, sortListBy, insertSortedBy, rowLe, dirSign, h2]
  refine ⟨hs, ?_⟩
  rw [hs]
  simp

/-- C1 (amended): after trimming, a pair with exactly one empty cell makes
`compareCells` return `1`/`-1` with the empty side last; sorting two such
rows therefore puts the empty-cell row **last under ascending** and
**first under descending** order, because `sortedTable` multiplies the
comparator by the direction sign. -/
theorem c1_empty_cell_direction (a b : String) (ha : trimStr a = "") (hb : trimStr b ≠ "") :
    compareCells a b = 1 ∧ compareCells b a = -1 ∧
      sortedTableRows [[b], [a]] 0 SortDir.asc = [[b], [a]] ∧
      sortedTableRows [[b], [a]] 0 SortDir.desc = [[a], [b]] := by
  have h1 := compareCells_empty_first a b ha hb
  have h2 := compareCells_empty_second b a hb ha
  refine ⟨h1, h2, ?_, ?_⟩ <;>
    norm_num [sortedTableRows, enumFrom, sortListBy, insertSortedBy, rowLe, dirSign, h1, h2]

/-- C1 (witness): the amended ordering at the concrete pair `""`, `"a"`. -/
theorem c1_empty_cell_direction_witness :
    compareCells "" "a" = 1 ∧ compareCells "a" "" = -1 ∧
      sortedTableRows [["a"], [""]] 0 SortDir.asc = [["a"], [""]] ∧
      sortedTableRows [["a"], [""]] 0 SortDir.desc = [[""], ["a"]] :=
  c1_empty_cell_direction "" "a" (by decide) (by decide)

/-- C5 (counterexample): `compareCells "10" "2"` returns `8` — the raw
numeric difference — which is not in `{-1, 0, 1}`. -/
theorem c5_counterexample :
    compareCells "10" "2" = 8 ∧
      ¬(compareCells "10" "2" = -1 ∨ compareCells "10" "2" = 0 ∨
        compareCells "10" "2" = 1) := by
  have ha : trimStr "10" = "10" := by decide
  have hb : trimStr "2" = "2" := by decide
  have h : compareCells "10" "2" = 8 := by
    simp +decide [compareCells, ha, hb, parseDec_ten, parseDec_two]
    norm_num
  refine ⟨h, ?_⟩
  rw [h]
  norm_num

/-- C5 (amended): the comparator's value is `-1`, `0` or `1` whenever
neither the numeric branch nor the chronological branch fires (both fire
only when **both** trimmed cells match the numeric pattern, respectively
both carry a date hint); in those branches the raw difference is returned
instead, so only its sign is meaningful. -/
theorem c5_sign_range (a b : String)
    (hnum : ¬(numPat (trimStr a).data && numPat (trimStr b).data) = true)
    (hdate : ¬(hasDateHint (trimStr a) && hasDateHint (trimStr b)) = true) :
    compareCells a b = -1 ∨ compareCells a b = 0 ∨ compareCells a b = 1 := by
  unfold compareCells
  split_ifs with h1 h2 h3
  · right; left; rfl
  · right; right; rfl
  · left; rfl
  · rcases cmpToks_cases (tokenize (trimStr a).data) (tokenize (trimStr b).data)
      with h | h | h <;> simp [localeCompareNB, h]

/-- C5 (witness): the amended range at the concrete non-numeric,
non-date pair `"x"`, `"y"`. -/
theorem c5_sign_range_witness :
    compareCells "x" "y" = -1 ∨ compareCells "x" "y" = 0 ∨ compareCells "x" "y" = 1 :=
  c5_sign_range "x" "y" (by decide) (by decide)

/-- C6 (amended): the comparator is reflexive (`compare(a, a) = 0`) and
antisymmetric (`compare(a, b) = -compare(b, a)`, hence opposite signs);
transitivity, the third total-order law of the claim, fails (see the
counterexample). -/
theorem c6_refl_antisymm :
    (∀ a, compareCells a a = 0) ∧ ∀ a b, compareCells a b = -compareCells b a :=
  ⟨compareCells_self, compareCells_swap⟩

/-- C6 (counterexample): sign-transitivity fails across the comparator's
branches: numerically `1.10 < 1.5`, and the numeric-aware lexical fallback
puts `"1.5"` before `"1.7x"`, yet it puts `"1.10"` **after** `"1.7x"`
(digit run `10 > 7`), so `compare` is not a total order. -/
theorem c6_counterexample :
    compareCells "1.10" "1.5" < 0 ∧ compareCells "1.5" "1.7x" < 0 ∧
      0 < compareCells "1.10" "1.7x" := by
  have ha : trimStr "1.10" = "1.10" := by decide
  have hb : trimStr "1.5" = "1.5" := by decide
  have hc : trimStr "1.7x" = "1.7x" := by decide
  have hp : parseDec ['1', '.', '1', '0'] = 11 / 10 := by
    simp +decide [parseDec, natOfDigits]
    norm_num
  have hq : parseDec ['1', '.', '5'] = 3 / 2 := by
    simp +decide [parseDec, natOfDigits]
    norm_num
  refine ⟨?_, ?_, ?_⟩ <;> simp +decide [compareCells, ha, hb, hc, hp, hq] <;> norm_num

/-! ## Claim theorems: the statement locator (C4, C10) -/

/-- The scanner agrees with its mode automaton: the segments are exactly
the intervals between the semicolons met in no special mode (plus the
trailing segment to end-of-buffer). -/
theorem scanSegs_eq_buildSegs :
    ∀ (cs : List Char) (i start : Nat) (m : ScanMode),
      scanSegs cs i start m = buildSegs start (neutralSemis cs i m) (i + cs.length) := by
  intro cs i start m
  induction cs, i, start, m using scanSegs.induct <;>
    simp_all [scanSegs, neutralSemis, buildSegs, List.length_cons] <;>
    (try split_ifs) <;>
    simp_all [Nat.add_comm, Nat.add_left_comm, Nat.add_assoc]
  all_goals rename_i c cs i start h ih
  all_goals cases cs <;>
    simp_all [scanSegs, neutralSemis, buildSegs, Nat.add_comm, Nat.add_left_comm, Nat.add_assoc]

/-- C4: a `;` ends a segment iff the scan meets it in no special mode —
the segment list is rebuilt exactly from the neutral-mode semicolon
positions of the mode automaton; in particular the embedded `';'` of
`SELECT ';' ; SELECT 2;` does not split the first statement (cursor 5
returns `SELECT ';'`), and in `-- c;\nSELECT 1; SELECT 2;` the `;` inside
the line comment is no separator (cursor 18, inside `SELECT 2`, returns
`SELECT 2`). -/
theorem c4_semicolon_boundaries :
    (∀ sql : String,
        segmentsOf sql = buildSegs 0 (neutralSemis sql.data 0 ScanMode.neutral) sql.length) ∧
      statementAtPosition
          (String.mk (['S','E','L','E','C','T',' '] ++ [squote, ';', squote] ++
            [' ', ';', ' '] ++ ['S','E','L','E','C','T',' ','2',';'])) 5 =
        String.mk (['S','E','L','E','C','T',' '] ++ [squote, ';', squote]) ∧
      statementAtPosition "-- c;\nSELECT 1; SELECT 2;" 18 = "SELECT 2" := by
  refine ⟨?_, by decide, by decide⟩
  intro sql
  show scanSegs sql.data 0 0 ScanMode.neutral = _
  rw [scanSegs_eq_buildSegs sql.data 0 0 ScanMode.neutral, Nat.zero_add]
  rfl

/-- C10: when no explicit selection is active and the statement located at
the cursor trims to the empty string, the resolution falls back to the
entire buffer, trimmed. -/
theorem c10_fallback_whole_buffer (doc : String) (pos : Nat)
    (h : trimStr (statementAtPosition doc pos) = "") :
    getSQLAtCursorOrSelection doc none pos = trimStr doc := by
  unfold getSQLAtCursorOrSelection
  simp [h]

/-- C10 (witness): in the buffer `" ; ;"` (only whitespace and
semicolons) every segment trims to `""`, and the resolution returns the
whole buffer trimmed. -/
theorem c10_fallback_whole_buffer_witness :
    trimStr (statementAtPosition " ; ;" 3) = "" ∧
      getSQLAtCursorOrSelection " ; ;" none 3 = trimStr " ; ;" :=
  ⟨by decide, c10_fallback_whole_buffer " ; ;" 3 (by decide)⟩

/-! ## Claim theorems: the file collector (C2, C8) -/

/-- C2 (counterexample): a directory with one readable and one unreadable
`.parquet` file makes the whole traversal reject with the read error — the
already-collected first file is not returned. -/
theorem c2_counterexample :
    collectFilesFromDirectoryHandle
        [FsEntry.file "a.parquet" (Except.ok ⟨10, ""⟩),
         FsEntry.file "b.parquet" (Except.error "NotReadableError")] "" =
      Except.error "NotReadableError" := by
  simp +decide [collectFilesFromDirectoryHandle, joinPath]
  rfl

/-- C2 (amended): an unreadable entry is **not** skipped: the traversal
has no per-entry error handler, so the first failing read of a supported
file rejects the whole call with that error and none of the collected
files or metadata are returned. -/
theorem c2_unreadable_entry_aborts (name basePath e : String) (rest : List FsEntry)
    (hsup : isSupportedFilePath (joinPath basePath name) = true) :
    collectFilesFromDirectoryHandle (FsEntry.file name (Except.error e) :: rest) basePath =
      Except.error e := by
  simp [collectFilesFromDirectoryHandle, hsup]
  rfl

/-- C2 (witness): the amended behaviour at a concrete unreadable
`.parquet` entry. -/
theorem c2_unreadable_entry_aborts_witness :
    collectFilesFromDirectoryHandle [FsEntry.file "a.parquet" (Except.error "boom")] "" =
      Except.error "boom" :=
  c2_unreadable_entry_aborts "a.parquet" "" "boom" [] (by decide)

/-! ## Claim theorems: the preview conversion (C7) -/

/-- C7: the preview holds exactly `min(table.numRows, limit)` rows, every
row as long as the column list; and the result never depends on any cell
at a row index `≥ limit` — two tables with the same schema and row count
that agree on all rows below `limit` convert identically. -/
theorem c7_preview_cap (t : ArrowTable) (limit : Nat) :
    ((tableToRows t limit).rows.length = min t.numRows limit ∧
      ∀ row ∈ (tableToRows t limit).rows,
        row.length = (tableToRows t limit).columns.length) ∧
      ∀ t' : ArrowTable, t'.fields = t.fields → t'.numRows = t.numRows →
        (∀ c r, r < limit → tableCell t' c r = tableCell t c r) →
        tableToRows t' limit = tableToRows t limit := by
  refine ⟨⟨?_, ?_⟩, ?_⟩
  · simp [tableToRows]
  · intro row hrow
    simp only [tableToRows, List.mem_map, List.mem_range] at hrow
    obtain ⟨r, _, rfl⟩ := hrow
    simp [tableToRows]
  · intro t' hf hn hcell
    simp only [tableToRows, hf, hn]
    congr 1
    apply List.map_congr_left
    intro r hr
    apply List.map_congr_left
    intro c _
    have hrlim : r < limit := by
      simp only [List.mem_range] at hr
      omega
    rw [hcell c r hrlim]

/-- C7 (witness): the cap and the locality at a one-column, two-row table
previewed with limit 1: a change in the second row (beyond the limit) is
invisible. -/
theorem c7_preview_cap_witness :
    (tableToRows ⟨["a"], [[JSValue.vprim "x", JSValue.vprim "y"]], 2⟩ 1).rows.length = 1 ∧
      tableToRows ⟨["a"], [[JSValue.vprim "x", JSValue.vprim "y"]], 2⟩ 1 =
        tableToRows ⟨["a"], [[JSValue.vprim "x", JSValue.vprim "z"]], 2⟩ 1 := by
  constructor
  · simpa using
      (c7_preview_cap ⟨["a"], [[JSValue.vprim "x", JSValue.vprim "y"]], 2⟩ 1).1.1
  · refine (c7_preview_cap ⟨["a"], [[JSValue.vprim "x", JSValue.vprim "z"]], 2⟩ 1).2
      ⟨["a"], [[JSValue.vprim "x", JSValue.vprim "y"]], 2⟩ rfl rfl ?_
    intro c r hr
    have hr0 : r = 0 := by omega
    subst hr0
    cases c with
    | zero => rfl
    | succ c => rfl


/-! ## Claim theorems: the file collector, continued (C8) -/

/-- Every file collected from a directory tree is aligned with its
metadata record: the path passed the extension filter, and size/type come
from the very file at the same index. -/
theorem collect_dir_aligned :
    ∀ (entries : List FsEntry) (basePath : String) (files : List FileData)
      (meta : List ImportedFile),
      collectFilesFromDirectoryHandle entries basePath = Except.ok (files, meta) →
      List.Forall₂ (fun (f : FileData) (m : ImportedFile) =>
        isSupportedFilePath m.path = true ∧ m.size = f.size ∧
          m.type = (if f.type = "" then "file" else f.type)) files meta := by
  intro entries basePath files meta h
  induction entries, basePath using collectFilesFromDirectoryHandle.induct
    generalizing files meta with
  | case1 =>
    simp only [collectFilesFromDirectoryHandle, Except.ok.injEq, Prod.mk.injEq] at h
    obtain ⟨rfl, rfl⟩ := h
    exact List.Forall₂.nil
  | case2 name children rest basePath ih1 ih2 =>
    simp only [collectFilesFromDirectoryHandle] at h
    cases hn : collectFilesFromDirectoryHandle children (joinPath basePath name) with
    | error e =>
      rw [hn] at h
      replace h : (Except.error e : Except String (List FileData × List ImportedFile)) =
          Except.ok (files, meta) := h
      cases h
    | ok nested =>
      rw [hn] at h
      cases ht : collectFilesFromDirectoryHandle rest basePath with
      | error e =>
        rw [ht] at h
        replace h : (Except.error e : Except String (List FileData × List ImportedFile)) =
            Except.ok (files, meta) := h
        cases h
      | ok tail =>
        rw [ht] at h
        replace h : (Except.ok (nested.1 ++ tail.1, nested.2 ++ tail.2) :
            Except String (List FileData × List ImportedFile)) = Except.ok (files, meta) := h
        simp only [Except.ok.injEq, Prod.mk.injEq] at h
        obtain ⟨rfl, rfl⟩ := h
        exact List.rel_append (ih1 _ _ hn) (ih2 _ _ ht)
  | case3 name res rest basePath hsup ih =>
    simp only [collectFilesFromDirectoryHandle, if_pos hsup] at h
    cases res with
    | error e =>
      replace h : (Except.error e : Except String (List FileData × List ImportedFile)) =
          Except.ok (files, meta) := h
      cases h
    | ok f =>
      cases ht : collectFilesFromDirectoryHandle rest basePath with
      | error e =>
        rw [ht] at h
        replace h : (Except.error e : Except String (List FileData × List ImportedFile)) =
            Except.ok (files, meta) := h
        cases h
      | ok tail =>
        rw [ht] at h
        replace h : (Except.ok (f :: tail.1,
            { path := joinPath basePath name, size := f.size,
              type := if f.type = "" then "file" else f.type } :: tail.2) :
            Except String (List FileData × List ImportedFile)) = Except.ok (files, meta) := h
        simp only [Except.ok.injEq, Prod.mk.injEq] at h
        obtain ⟨rfl, rfl⟩ := h
        exact List.Forall₂.cons ⟨hsup, rfl, rfl⟩ (ih _ _ ht)
  | case4 name res rest basePath hsup ih =>
    simp only [collectFilesFromDirectoryHandle, if_neg hsup] at h
    exact ih _ _ h
  | case5 name rest basePath ih =>
    simp only [collectFilesFromDirectoryHandle] at h
    exact ih _ _ h

/-- The flat fallback collector keeps files aligned with their metadata:
the path (`webkitRelativePath || name`) passed the extension filter, and
size/type come from the file at the same index. -/
theorem collect_flat_aligned (fl : List FlatFile) :
    List.Forall₂ (fun (f : FlatFile) (m : ImportedFile) =>
        isSupportedFilePath m.path = true ∧ m.size = f.size ∧
          m.path = (if f.webkitRelativePath ≠ "" then f.webkitRelativePath else f.name) ∧
          m.type = (if f.type = "" then "file" else f.type))
      (collectFilesFromFileList fl).1 (collectFilesFromFileList fl).2 := by
  induction fl with
  | nil => exact List.Forall₂.nil
  | cons f rest ih =>
    simp only [collectFilesFromFileList]
    by_cases hs : isSupportedFilePath
        (if f.webkitRelativePath ≠ "" then f.webkitRelativePath else f.name) = true
    · simp only [hs, if_true]
      exact List.Forall₂.cons ⟨hs, rfl, rfl, rfl⟩ ih
    · simp only [hs, if_false]
      exact ih

/-- C8: both collectors return only files whose path passes the
case-insensitive `{.parquet,.csv,.json,.ndjson}` filter, with
`files.length = meta.length` and `meta[i]` describing `files[i]`
(same-index path, size and type). -/
theorem c8_collector_filter_alignment :
    (∀ (entries : List FsEntry) (basePath : String) (files : List FileData)
        (meta : List ImportedFile),
        collectFilesFromDirectoryHandle entries basePath = Except.ok (files, meta) →
        files.length = meta.length ∧
          List.Forall₂ (fun (f : FileData) (m : ImportedFile) =>
            isSupportedFilePath m.path = true ∧ m.size = f.size ∧
              m.type = (if f.type = "" then "file" else f.type)) files meta) ∧
      ∀ fl : List FlatFile,
        (collectFilesFromFileList fl).1.length = (collectFilesFromFileList fl).2.length ∧
          List.Forall₂ (fun (f : FlatFile) (m : ImportedFile) =>
            isSupportedFilePath m.path = true ∧ m.size = f.size ∧
              m.path = (if f.webkitRelativePath ≠ "" then f.webkitRelativePath else f.name) ∧
              m.type = (if f.type = "" then "file" else f.type))
            (collectFilesFromFileList fl).1 (collectFilesFromFileList fl).2 := by
  constructor
  · intro entries basePath files meta h
    have ha := collect_dir_aligned entries basePath files meta h
    exact ⟨ha.length_eq, ha⟩
  · intro fl
    exact ⟨(collect_flat_aligned fl).length_eq, collect_flat_aligned fl⟩

/-- C8 (witness): the alignment on a concrete tree with a supported root
file, an unsupported `.txt` file, a nested `.csv` and a non-file entry. -/
theorem c8_collector_filter_alignment_witness :
    ([⟨3, ""⟩, ⟨2, "x"⟩] : List FileData).length =
        ([⟨"root/a.parquet", 3, "file"⟩, ⟨"root/sub/c.csv", 2, "x"⟩] :
          List ImportedFile).length ∧
      List.Forall₂ (fun (f : FileData) (m : ImportedFile) =>
          isSupportedFilePath m.path = true ∧ m.size = f.size ∧
            m.type = (if f.type = "" then "file" else f.type))
        [⟨3, ""⟩, ⟨2, "x"⟩]
        [⟨"root/a.parquet", 3, "file"⟩, ⟨"root/sub/c.csv", 2, "x"⟩] := by
  have hc : collectFilesFromDirectoryHandle
      [FsEntry.file "a.parquet" (Except.ok ⟨3, ""⟩),
       FsEntry.file "b.txt" (Except.ok ⟨1, ""⟩),
       FsEntry.dir "sub" [FsEntry.file "c.csv" (Except.ok ⟨2, "x"⟩)],
       FsEntry.other "dev"] "root" =
      Except.ok ([⟨3, ""⟩, ⟨2, "x"⟩],
        [⟨"root/a.parquet", 3, "file"⟩, ⟨"root/sub/c.csv", 2, "x"⟩]) := by
    simp +decide [collectFilesFromDirectoryHandle, joinPath]
    rfl
  exact (c8_collector_filter_alignment.1 _ "root" _ _ hc)

/-! ## Claim theorems: the CSV export (C3) -/

theorem concatParts_append_one (xs : List String) (b : String) :
    concatParts (xs ++ [b]) = concatParts xs ++ b := by
  induction xs with
  | nil => simp [concatParts, String.append_empty]
  | cons x xs ih => simp only [List.cons_append, concatParts, List.foldr_cons] at ih ⊢
                    rw [ih, String.append_assoc]

theorem csvPushRow_inv (fc : Nat) (st : CSVState) (line : String) :
    (csvPushRow fc st line).headerWritten = st.headerWritten ∧
      (csvPushRow fc st line).columns = st.columns ∧
      concatParts (csvPushRow fc st line).parts ++ (csvPushRow fc st line).buffer =
        concatParts st.parts ++ st.buffer ++ line := by
  simp only [csvPushRow]
  split_ifs <;>
    simp [concatParts_append_one, String.append_empty, String.append_assoc]

theorem csvRowsFold_inv (fc : Nat) (b : RecordBatch) (rs : List Nat) (st : CSVState) :
    ((rs.foldl (fun s r => csvPushRow fc s (csvRowLine b s.columns r)) st).headerWritten =
        st.headerWritten) ∧
      ((rs.foldl (fun s r => csvPushRow fc s (csvRowLine b s.columns r)) st).columns =
        st.columns) ∧
      concatParts (rs.foldl (fun s r => csvPushRow fc s (csvRowLine b s.columns r)) st).parts ++
          (rs.foldl (fun s r => csvPushRow fc s (csvRowLine b s.columns r)) st).buffer =
        concatParts st.parts ++ st.buffer ++
          concatParts (rs.map (csvRowLine b st.columns)) := by
  induction rs generalizing st with
  | nil => simp [concatParts, String.append_empty]
  | cons r rs ih =>
    simp only [List.foldl_cons, List.map_cons]
    obtain ⟨h1, h2, h3⟩ := ih (csvPushRow fc st (csvRowLine b st.columns r))
    obtain ⟨p1, p2, p3⟩ := csvPushRow_inv fc st (csvRowLine b st.columns r)
    refine ⟨by rw [h1, p1], by rw [h2, p2], ?_⟩
    rw [p2, p3] at h3
    rw [h3]
    simp only [concatParts, List.foldr_cons, String.append_assoc]

theorem csvLine_data_ne_nil (cells : List String) : (csvLine cells).data ≠ [] := by
  show (String.intercalate "," (cells.map csvEscape)).data ++ ("\r\n" : String).data ≠ []
  simp

theorem csvProcessBatch_later (ihdr : Bool) (fc : Nat) (st : CSVState) (b : RecordBatch)
    (hw : st.headerWritten = true) :
    (csvProcessBatch ihdr fc st b).headerWritten = true ∧
      ∃ suffix,
        concatParts (csvProcessBatch ihdr fc st b).parts ++
            (csvProcessBatch ihdr fc st b).buffer =
          concatParts st.parts ++ st.buffer ++ suffix := by
  simp only [csvProcessBatch, hw, Bool.not_true, Bool.false_eq_true, if_false]
  obtain ⟨h1, _, h3⟩ := csvRowsFold_inv fc b (List.range b.numRows) st
  exact ⟨by rw [h1, hw], _, h3⟩

theorem csvFoldBatches (ihdr : Bool) (fc : Nat) (bs : List RecordBatch) (st : CSVState)
    (hw : st.headerWritten = true) :
    (bs.foldl (csvProcessBatch ihdr fc) st).headerWritten = true ∧
      ∃ suffix,
        concatParts (bs.foldl (csvProcessBatch ihdr fc) st).parts ++
            (bs.foldl (csvProcessBatch ihdr fc) st).buffer =
          concatParts st.parts ++ st.buffer ++ suffix := by
  induction bs generalizing st with
  | nil => exact ⟨hw, "", by simp [String.append_empty]⟩
  | cons b bs ih =>
    simp only [List.foldl_cons]
    obtain ⟨h1, s1, hs1⟩ := csvProcessBatch_later ihdr fc st b hw
    obtain ⟨h2, s2, hs2⟩ := ih (csvProcessBatch ihdr fc st b) h1
    refine ⟨h2, s1 ++ s2, ?_⟩
    rw [hs2, hs1, String.append_assoc]

theorem c3_export_error_iff_and_header (batches : List RecordBatch) (opts : CSVOpts) :
    (recordBatchesToCSVParts batches opts =
        Except.error "Query não retornou schema para exportação." ↔ batches = []) ∧
      ∀ out b, recordBatchesToCSVParts batches opts = Except.ok out →
        batches.head? = some b → opts.header.getD true = true →
        out.parts ≠ [] ∧ (csvLine b.fields).data <+: (concatParts out.parts).data := by
  cases batches with
  | nil =>
    constructor
    · simp [recordBatchesToCSVParts]
    · intro out b h
      simp [recordBatchesToCSVParts] at h
  | cons b rest =>
    obtain ⟨hw1, _, hc1⟩ :=
      csvRowsFold_inv (opts.flushChars.getD 1000000) b (List.range b.numRows)
        { parts := [],
          buffer := "" ++ (if opts.header.getD true then csvLine b.fields else ""),
          headerWritten := true, columns := b.fields.length, rows := 0 }
    obtain ⟨hw2, suffix, hc2⟩ :=
      csvFoldBatches (opts.header.getD true) (opts.flushChars.getD 1000000) rest _ hw1
    have h1 : csvProcessBatch (opts.header.getD true) (opts.flushChars.getD 1000000)
        { parts := [], buffer := "", headerWritten := false, columns := 0, rows := 0 } b =
        List.foldl (fun s r => csvPushRow (opts.flushChars.getD 1000000) s
            (csvRowLine b s.columns r))
          { parts := [],
            buffer := "" ++ (if opts.header.getD true then csvLine b.fields else ""),
            headerWritten := true, columns := b.fields.length, rows := 0 }
          (List.range b.numRows) := rfl
    have hres : recordBatchesToCSVParts (b :: rest) opts = Except.ok
        { parts :=
            if (List.foldl (csvProcessBatch (opts.header.getD true)
                  (opts.flushChars.getD 1000000))
                (List.foldl (fun s r => csvPushRow (opts.flushChars.getD 1000000) s
                    (csvRowLine b s.columns r))
                  { parts := [],
                    buffer := "" ++ (if opts.header.getD true then csvLine b.fields else ""),
                    headerWritten := true, columns := b.fields.length, rows := 0 }
                  (List.range b.numRows)) rest).buffer ≠ "" then
              (List.foldl (csvProcessBatch (opts.header.getD true)
                  (opts.flushChars.getD 1000000))
                (List.foldl (fun s r => csvPushRow (opts.flushChars.getD 1000000) s
                    (csvRowLine b s.columns r))
                  { parts := [],
                    buffer := "" ++ (if opts.header.getD true then csvLine b.fields else ""),
                    headerWritten := true, columns := b.fields.length, rows := 0 }
                  (List.range b.numRows)) rest).parts ++
                [(List.foldl (csvProcessBatch (opts.header.getD true)
                    (opts.flushChars.getD 1000000))
                  (List.foldl (fun s r => csvPushRow (opts.flushChars.getD 1000000) s
                      (csvRowLine b s.columns r))
                    { parts := [],
                      buffer := "" ++ (if opts.header.getD true then csvLine b.fields else ""),
                      headerWritten := true, columns := b.fields.length, rows := 0 }
                    (List.range b.numRows)) rest).buffer]
            else
              (List.foldl (csvProcessBatch (opts.header.getD true)
                  (opts.flushChars.getD 1000000))
                (List.foldl (fun s r => csvPushRow (opts.flushChars.getD 1000000) s
                    (csvRowLine b s.columns r))
                  { parts := [],
                    buffer := "" ++ (if opts.header.getD true then csvLine b.fields else ""),
                    headerWritten := true, columns := b.fields.length, rows := 0 }
                  (List.range b.numRows)) rest).parts,
          rows := (List.foldl (csvProcessBatch (opts.header.getD true)
                  (opts.flushChars.getD 1000000))
                (List.foldl (fun s r => csvPushRow (opts.flushChars.getD 1000000) s
                    (csvRowLine b s.columns r))
                  { parts := [],
                    buffer := "" ++ (if opts.header.getD true then csvLine b.fields else ""),
                    headerWritten := true, columns := b.fields.length, rows := 0 }
                  (List.range b.numRows)) rest).rows,
          columns := (List.foldl (csvProcessBatch (opts.header.getD true)
                  (opts.flushChars.getD 1000000))
                (List.foldl (fun s r => csvPushRow (opts.flushChars.getD 1000000) s
                    (csvRowLine b s.columns r))
                  { parts := [],
                    buffer := "" ++ (if opts.header.getD true then csvLine b.fields else ""),
                    headerWritten := true, columns := b.fields.length, rows := 0 }
                  (List.range b.numRows)) rest).columns } := by
      simp only [recordBatchesToCSVParts]
      rw [List.foldl_cons, h1]
      simp only [hw2, Bool.not_true, Bool.false_eq_true, if_false]
    refine ⟨?_, ?_⟩
    · rw [hres]
      simp
    · intro out bb hout hhead hih
      rw [hres] at hout
      injection hout with hout
      subst hout
      simp only [List.head?_cons, Option.some.injEq] at hhead
      subst hhead
      dsimp only
      have hx : ∀ (final : CSVState),
          concatParts (if final.buffer ≠ "" then final.parts ++ [final.buffer]
            else final.parts) = concatParts final.parts ++ final.buffer := by
        intro final
        split_ifs with hbuf
        · exact concatParts_append_one _ _
        · push_neg at hbuf
          rw [hbuf, String.append_empty]
      have hcat : concatParts
          (if (List.foldl (csvProcessBatch (opts.header.getD true)
                (opts.flushChars.getD 1000000))
              (List.foldl (fun s r => csvPushRow (opts.flushChars.getD 1000000) s
                  (csvRowLine b s.columns r))
                { parts := [],
                  buffer := "" ++ (if opts.header.getD true then csvLine b.fields else ""),
                  headerWritten := true, columns := b.fields.length, rows := 0 }
                (List.range b.numRows)) rest).buffer ≠ "" then
            (List.foldl (csvProcessBatch (opts.header.getD true)
                (opts.flushChars.getD 1000000))
              (List.foldl (fun s r => csvPushRow (opts.flushChars.getD 1000000) s
                  (csvRowLine b s.columns r))
                { parts := [],
                  buffer := "" ++ (if opts.header.getD true then csvLine b.fields else ""),
                  headerWritten := true, columns := b.fields.length, rows := 0 }
                (List.range b.numRows)) rest).parts ++
              [(List.foldl (csvProcessBatch (opts.header.getD true)
                  (opts.flushChars.getD 1000000))
                (List.foldl (fun s r => csvPushRow (opts.flushChars.getD 1000000) s
                    (csvRowLine b s.columns r))
                  { parts := [],
                    buffer := "" ++ (if opts.header.getD true then csvLine b.fields else ""),
                    headerWritten := true, columns := b.fields.length, rows := 0 }
                  (List.range b.numRows)) rest).buffer]
          else
            (List.foldl (csvProcessBatch (opts.header.getD true)
                (opts.flushChars.getD 1000000))
              (List.foldl (fun s r => csvPushRow (opts.flushChars.getD 1000000) s
                  (csvRowLine b s.columns r))
                { parts := [],
                  buffer := "" ++ (if opts.header.getD true then csvLine b.fields else ""),
                  headerWritten := true, columns := b.fields.length, rows := 0 }
                (List.range b.numRows)) rest).parts) =
          csvLine b.fields ++
            (concatParts (List.map (csvRowLine b b.fields.length) (List.range b.numRows)) ++
              suffix) := by
        rw [hx, hc2, hc1]
        simp only [hih, if_true, concatParts, List.foldr_nil, String.append_assoc]
        rfl
      constructor
      · intro hnil
        rw [hnil] at hcat
        have hd := congrArg String.data hcat
        simp only [concatParts, List.foldr_nil] at hd
        have hd2 : ([] : List Char) = (csvLine b.fields).data ++
            (concatParts (List.map (csvRowLine b b.fields.length) (List.range b.numRows)) ++
              suffix).data := hd
        exact csvLine_data_ne_nil b.fields (List.append_eq_nil.mp hd2.symm).1
      · rw [hcat]
        exact List.prefix_append _ _

/-- C3 (counterexample): with the header option disabled and a single
zero-row batch, the export succeeds with **zero chunks** — a header-less,
empty, yet successful result. -/
theorem c3_counterexample :
    recordBatchesToCSVParts [⟨["a"], 0, [[]]⟩] ⟨some false, none⟩ =
      Except.ok ⟨[], 0, 1⟩ := rfl

/-- C3 (witness): the amended guarantees at a concrete one-batch stream
under default options: that export does not fail, and its chunk list is
non-empty and starts with the header line. -/
theorem c3_export_error_iff_and_header_witness :
    (recordBatchesToCSVParts [⟨["a"], 1, [[JSValue.vprim "v"]]⟩] ⟨none, none⟩ =
        Except.error "Query não retornou schema para exportação." ↔
      ([⟨["a"], 1, [[JSValue.vprim "v"]]⟩] : List RecordBatch) = []) ∧
      (["a\r\nv\r\n"] : List String) ≠ [] ∧
        (csvLine ["a"]).data <+: (concatParts ["a\r\nv\r\n"]).data :=
  ⟨(c3_export_error_iff_and_header [⟨["a"], 1, [[JSValue.vprim "v"]]⟩] ⟨none, none⟩).1,
   (c3_export_error_iff_and_header [⟨["a"], 1, [[JSValue.vprim "v"]]⟩] ⟨none, none⟩).2
     ⟨["a\r\nv\r\n"], 1, 1⟩ ⟨["a"], 1, [[JSValue.vprim "v"]]⟩ rfl rfl rfl⟩


/-! ## Claim theorems: the workbench tab state (C9) -/

/-- `Nat.toDigitsCore` never shrinks a non-empty accumulator to nothing. -/
theorem toDigitsCore_ne_nil (b fuel n : Nat) (ds : List Char) (h : ds ≠ []) :
    Nat.toDigitsCore b fuel n ds ≠ [] := by
  induction fuel generalizing n ds with
  | zero => simpa [Nat.toDigitsCore] using h
  | succ fuel ih =>
    simp only [Nat.toDigitsCore]
    split
    · simp
    · exact ih _ _ (by simp)

/-- `String(Date.now())` is never the empty string: `Nat.repr` always
emits at least one digit. -/
theorem natRepr_ne_empty (n : Nat) : Nat.repr n ≠ "" := by
  intro h
  have hd : Nat.toDigits 10 n = [] := by
    have := congrArg String.data h
    simpa [Nat.repr, List.asString] using this
  revert hd
  show Nat.toDigitsCore 10 (n + 1) n [] = [] → False
  simp only [Nat.toDigitsCore]
  split
  · simp
  · intro hc
    exact toDigitsCore_ne_nil _ _ _ _ (by simp) hc

/-- Mapping an id-preserving function over the tabs keeps the id list. -/
theorem tabIds_map_preserve (f : QueryTab → QueryTab) (h : ∀ t, (f t).id = t.id)
    (tabs : List QueryTab) : tabIds (tabs.map f) = tabIds tabs := by
  induction tabs with
  | nil => rfl
  | cons t ts ih => simp_all [tabIds]

/-- The tab-state invariant holds in every state reachable along
collision-free steps: tabs are never empty, the active id names a tab, ids
are distinct and non-empty.  Along unrestricted `WStep` it fails, as the
C9 theorem below exhibits. -/
theorem winv_of_reachableFresh : ∀ s, WReachableFresh s → WInv s := by
  intro s h
  induction h with
  | boot => exact ⟨by decide, by decide, by decide, by decide⟩
  | bootSaved s hr ih =>
    obtain ⟨h1, _, h3, h4⟩ := ih
    refine ⟨h1, ?_, h3, h4⟩
    cases hh : s.tabs.head? with
    | none => simp [List.head?_eq_none_iff] at hh; exact absurd hh h1
    | some t =>
      have ht : t ∈ s.tabs := List.mem_of_mem_head? hh
      have hne : t.id ≠ "" := h4 _ (List.mem_map_of_mem _ ht)
      simp only [initWState, loadTabsFromStorage, hh, hne, if_neg hne]
      exact List.mem_map_of_mem _ ht
  | step s s' hr hstep ih =>
    obtain ⟨h1, h2, h3, h4⟩ := ih
    cases hstep with
    | createNewTab now category hfresh =>
      refine ⟨by simp [createNewTabFn], ?_, ?_, ?_⟩
      · simp [createNewTabFn, tabIds]
      · simp only [createNewTabFn, tabIds, List.map_append, List.map_cons, List.map_nil]
        rw [List.nodup_append]
        exact ⟨h3, List.nodup_singleton _, by simpa [tabIds] using hfresh⟩
      · intro i hi
        simp only [createNewTabFn, tabIds, List.map_append, List.map_cons, List.map_nil,
          List.mem_append, List.mem_singleton] at hi
        rcases hi with hi | hi
        · exact h4 i hi
        · subst hi; exact natRepr_ne_empty now
    | createTemplateTab now name sql hfresh =>
      refine ⟨by simp [createTemplateTabFn], ?_, ?_, ?_⟩
      · simp [createTemplateTabFn, tabIds]
      · simp only [createTemplateTabFn, tabIds, List.map_append, List.map_cons, List.map_nil]
        rw [List.nodup_append]
        exact ⟨h3, List.nodup_singleton _, by simpa [tabIds] using hfresh⟩
      · intro i hi
        simp only [createTemplateTabFn, tabIds, List.map_append, List.map_cons, List.map_nil,
          List.mem_append, List.mem_singleton] at hi
        rcases hi with hi | hi
        · exact h4 i hi
        · subst hi; exact natRepr_ne_empty now
    | selectTab tabId hmem =>
      exact ⟨h1, hmem, h3, h4⟩
    | updateTabSQL tabId sql =>
      have hids : tabIds ((updateTabSQLFn s tabId sql).tabs) = tabIds s.tabs := by
        apply tabIds_map_preserve
        intro t
        by_cases ht : t.id = tabId <;> simp [ht]
      refine ⟨?_, ?_, ?_, ?_⟩
      · simp only [updateTabSQLFn]
        intro hc
        exact h1 (List.map_eq_nil_iff.mp hc)
      · rw [show (updateTabSQLFn s tabId sql).activeTabId = s.activeTabId from rfl, hids]
        exact h2
      · rw [hids]; exact h3
      · rw [hids]; exact h4
    | updateTabName tabId name =>
      have hids : tabIds ((updateTabNameFn s tabId name).tabs) = tabIds s.tabs := by
        apply tabIds_map_preserve
        intro t
        by_cases ht : t.id = tabId <;> simp [ht]
      refine ⟨?_, ?_, ?_, ?_⟩
      · simp only [updateTabNameFn]
        intro hc
        exact h1 (List.map_eq_nil_iff.mp hc)
      · rw [show (updateTabNameFn s tabId name).activeTabId = s.activeTabId from rfl, hids]
        exact h2
      · rw [hids]; exact h3
      · rw [hids]; exact h4
    | markTabClean tabId =>
      have hids : tabIds ((markTabCleanFn s tabId).tabs) = tabIds s.tabs := by
        apply tabIds_map_preserve
        intro t
        by_cases ht : t.id = tabId <;> simp [ht]
      refine ⟨?_, ?_, ?_, ?_⟩
      · simp only [markTabCleanFn]
        intro hc
        exact h1 (List.map_eq_nil_iff.mp hc)
      · rw [show (markTabCleanFn s tabId).activeTabId = s.activeTabId from rfl, hids]
        exact h2
      · rw [hids]; exact h3
      · rw [hids]; exact h4
    | closeTab tabId =>
      have hnn : ¬s.tabs.length = 1 → s.tabs.filter (fun t => t.id != tabId) ≠ [] := by
        intro hlen hnil
        rw [List.filter_eq_nil_iff] at hnil
        cases hts : s.tabs with
        | nil => exact h1 hts
        | cons t1 rest =>
          cases hrest : rest with
          | nil =>
            refine hlen ?_
            rw [hts, hrest]
            rfl
          | cons t2 rest2 =>
            have e1 : t1.id = tabId := by
              have h5 := hnil t1 (by rw [hts]; exact List.mem_cons_self _ _)
              simpa using h5
            have e2 : t2.id = tabId := by
              have h5 := hnil t2
                (by rw [hts, hrest]; exact List.mem_cons_of_mem _ (List.mem_cons_self _ _))
              simpa using h5
            rw [hts, hrest] at h3
            simp [tabIds, e1, e2] at h3
      simp only [closeTabFn]
      split_ifs with hlen hact
      · exact ⟨h1, h2, h3, h4⟩
      · refine ⟨hnn hlen, ?_, ?_, ?_⟩
        · dsimp only
          cases hh : (s.tabs.filter (fun t => t.id != tabId)).head? with
          | none => rw [List.head?_eq_none_iff] at hh; exact absurd hh (hnn hlen)
          | some t =>
            have ht : t ∈ s.tabs.filter (fun t => t.id != tabId) := List.mem_of_mem_head? hh
            have htm : t ∈ s.tabs := List.mem_of_mem_filter ht
            have hne : t.id ≠ "" := h4 _ (List.mem_map_of_mem _ htm)
            show (if t.id = "" then "1" else t.id) ∈
              tabIds (List.filter (fun t => t.id != tabId) s.tabs)
            rw [if_neg hne]
            exact List.mem_map_of_mem _ ht
        · exact h3.sublist (List.Sublist.map _ (List.filter_sublist _))
        · intro i hi
          obtain ⟨t, htm, hid⟩ := List.mem_map.mp hi
          exact hid ▸ h4 _ (List.mem_map_of_mem _ (List.mem_of_mem_filter htm))
      · refine ⟨hnn hlen, ?_, ?_, ?_⟩
        · dsimp only
          obtain ⟨t, htm, hid⟩ := List.mem_map.mp h2
          refine List.mem_map.mpr ⟨t, List.mem_filter.mpr ⟨htm, ?_⟩, hid⟩
          simp only [bne_iff_ne, ne_eq]
          rw [hid]
          exact hact
        · exact h3.sublist (List.Sublist.map _ (List.filter_sublist _))
        · intro i hi
          obtain ⟨t, htm, hid⟩ := List.mem_map.mp hi
          exact hid ▸ h4 _ (List.mem_map_of_mem _ (List.mem_of_mem_filter htm))

/-- C9: closing when only one tab remains is a no-op (the `length === 1`
guard), but the rest of the claimed invariant — at least one tab always
exists and `activeTabId` references an existing tab — fails in a
reachable state.  Two tab creations in the same millisecond both mint
`String(Date.now()) = "5"`; closing the seed tab `"1"` and then id `"5"`
passes the length guard each time, and the second close's
`filter(t => t.id !== tabId)` removes both duplicates at once, leaving
zero tabs while `activeTabId` becomes the dangling fallback `"1"`. -/
theorem c9_duplicate_id_violation :
    (∀ s tabId, s.tabs.length = 1 → closeTabFn s tabId = s) ∧
      WReachable c9CollideState ∧ c9CollideState.tabs = [] ∧
        c9CollideState.activeTabId = "1" ∧ ¬ WInv c9CollideState := by
  have htabs : c9CollideState.tabs = [] := by decide
  have hreach : WReachable c9CollideState := by
    have h1 := WReachable.step _ _ WReachable.boot
      (WStep.createNewTab (initWState none) 5 TabCategory.scripts)
    have h2 := WReachable.step _ _ h1 (WStep.createNewTab _ 5 TabCategory.scripts)
    have h3 := WReachable.step _ _ h2 (WStep.closeTab _ "1")
    exact WReachable.step _ _ h3 (WStep.closeTab _ "5")
  refine ⟨fun s tabId hlen => by unfold closeTabFn; rw [if_pos hlen],
    hreach, htabs, by decide, fun h => h.1 htabs⟩

end ParquetQuery
